import Mathlib

/-!
Verification development for the `vt-wasm` projection layer
(`src/packages/vt-wasm/src/lib.rs`).

Modelling conventions:
* Rust `String` values are modelled as `List Char` (`push` appends, `clear`
  empties, `trim` drops Unicode whitespace from both ends).
* Rust `u8` components of colors are modelled as `Nat` (values fed by the
  engine are < 256; the hex formatter uses `% 16` so it is total).
* The external VT engine (`avt`) is a black box; its observable state is
  modelled by the `AvtVt` structure following the capability interface of
  the spec (view, lines, cursor, size).  Its fallible `feed_str` routine is
  modelled by an abstract transition (`FeedSem`), since the engine is not
  part of this repository.
* The `JsValue` boundary is modelled structurally: `JsValue::NULL` is
  `Option.none`, a serialized value is `Option.some` of the structured
  value (serialization of the plain numeric/string shapes used here is
  total).
-/

namespace VtWasm


/-- Type for avt's `RGB8` color triple (`rgb.r`, `rgb.g`, `rgb.b`, each a `u8`). -/
structure RGB8 where
  r : Nat
  g : Nat
  b : Nat
deriving DecidableEq

/-- Type for avt's `Color`: `Color::Indexed(u8)` or `Color::RGB(RGB8)`. -/
inductive Color where
  | indexed : Nat → Color
  | rgb : RGB8 → Color
deriving DecidableEq

/-- The `ColorValue` type from lib.rs: either a palette index (number) or RGB hex string. -/
inductive ColorValue where
  | indexed : Nat → ColorValue
  | rgb : List Char → ColorValue
deriving DecidableEq

/-- One uppercase hex digit, as produced by Rust's `{:X}` formatting. -/
def hexDigit (n : Nat) : Char :=
  if n < 10 then Char.ofNat (48 + n) else Char.ofNat (55 + n)

/-- Rust's `{:02X}` formatting of a `u8`: exactly two uppercase hex digits
(high nibble first).  Total on `Nat` via `% 16`; exact for inputs < 256. -/
def byteToHex (n : Nat) : List Char :=
  [hexDigit (n / 16 % 16), hexDigit (n % 16)]

/-- Function `map_color` from lib.rs: `Indexed(n) ↦ Indexed(n)`,
`RGB(rgb) ↦ Rgb("#RRGGBB")` with uppercase hex. -/
def map_color (color : Color) : ColorValue :=
  match color with
  | Color.indexed n => ColorValue.indexed n
  | Color.rgb rgb =>
      let hex := '#' :: (byteToHex rgb.r ++ byteToHex rgb.g ++ byteToHex rgb.b)
      ColorValue.rgb hex

/-- Type for avt's `Pen`: optional fg/bg colors plus the seven boolean attributes,
as exposed by the accessor methods used in lib.rs. -/
structure Pen where
  foreground : Option Color
  background : Option Color
  is_bold : Bool
  is_faint : Bool
  is_italic : Bool
  is_underline : Bool
  is_strikethrough : Bool
  is_blink : Bool
  is_inverse : Bool
deriving DecidableEq

/-- Type for avt's `Cell`: a display character, a display width (0, 1 or 2) and a pen. -/
structure Cell where
  char : Char
  width : Nat
  pen : Pen
deriving DecidableEq

/-- The `SnapshotSpan` type from lib.rs: a styled run of text. -/
structure SnapshotSpan where
  text : List Char
  fg : Option ColorValue
  bg : Option ColorValue
  bold : Bool
  faint : Bool
  italic : Bool
  underline : Bool
  strikethrough : Bool
  blink : Bool
  inverse : Bool
deriving DecidableEq

/-- The `SnapshotLine` type from lib.rs. -/
structure SnapshotLine where
  spans : List SnapshotSpan
deriving DecidableEq

/-- The `TerminalSnapshot` type from lib.rs. -/
structure TerminalSnapshot where
  cols : Nat
  rows : Nat
  lines : List SnapshotLine
deriving DecidableEq

/-- The mutable locals of `merge_cells_to_spans`' loop in lib.rs. -/
structure MergeState where
  spans : List SnapshotSpan
  current_text : List Char
  current_fg : Option ColorValue
  current_bg : Option ColorValue
  current_bold : Bool
  current_faint : Bool
  current_italic : Bool
  current_underline : Bool
  current_strikethrough : Bool
  current_blink : Bool
  current_inverse : Bool

/-- The initial locals of `merge_cells_to_spans`. -/
def initMergeState : MergeState :=
  { spans := []
    current_text := []
    current_fg := none
    current_bg := none
    current_bold := false
    current_faint := false
    current_italic := false
    current_underline := false
    current_strikethrough := false
    current_blink := false
    current_inverse := false }

/-- The span pushed by `merge_cells_to_spans` when it flushes the current run. -/
def mkCurrentSpan (st : MergeState) : SnapshotSpan :=
  { text := st.current_text
    fg := st.current_fg
    bg := st.current_bg
    bold := st.current_bold
    faint := st.current_faint
    italic := st.current_italic
    underline := st.current_underline
    strikethrough := st.current_strikethrough
    blink := st.current_blink
    inverse := st.current_inverse }

/-- One iteration of the `for cell in line.cells()` loop of
`merge_cells_to_spans` in lib.rs.  Rust's boolean `attrs_match &&
!current_text.is_empty()` test is rendered as the corresponding decidable
proposition (`PartialEq` equality of each attribute, conjunction, and
non-emptiness of the current text). -/
def mergeStep (st : MergeState) (cell : Cell) : MergeState :=
  if cell.width = 0 then
    st
  else
    let pen := cell.pen
    let fg := pen.foreground.map (fun c => map_color c)
    let bg := pen.background.map (fun c => map_color c)
    let bold := pen.is_bold
    let faint := pen.is_faint
    let italic := pen.is_italic
    let underline := pen.is_underline
    let strikethrough := pen.is_strikethrough
    let blink := pen.is_blink
    let inverse := pen.is_inverse
    if (fg = st.current_fg
          ∧ bg = st.current_bg
          ∧ bold = st.current_bold
          ∧ faint = st.current_faint
          ∧ italic = st.current_italic
          ∧ underline = st.current_underline
          ∧ strikethrough = st.current_strikethrough
          ∧ blink = st.current_blink
          ∧ inverse = st.current_inverse)
        ∧ st.current_text ≠ [] then
      { st with current_text := st.current_text ++ [cell.char] }
    else
      let spans :=
        if st.current_text ≠ [] then st.spans ++ [mkCurrentSpan st]
        else st.spans
      { spans := spans
        current_text := [cell.char]
        current_fg := fg
        current_bg := bg
        current_bold := bold
        current_faint := faint
        current_italic := italic
        current_underline := underline
        current_strikethrough := strikethrough
        current_blink := blink
        current_inverse := inverse }

/-- Function `merge_cells_to_spans` from lib.rs: the loop over the row's cells
followed by the final flush. -/
def merge_cells_to_spans (cells : List Cell) : List SnapshotSpan :=
  let st := cells.foldl mergeStep initMergeState
  if st.current_text ≠ [] then st.spans ++ [mkCurrentSpan st]
  else st.spans

/-- Rust's `char::is_whitespace` (the Unicode White_Space property). -/
def rustIsWhitespace (c : Char) : Bool :=
  let n := c.toNat
  (0x09 ≤ n && n ≤ 0x0D) || n == 0x20 || n == 0x85 || n == 0xA0
    || n == 0x1680 || (0x2000 ≤ n && n ≤ 0x200A)
    || n == 0x2028 || n == 0x2029 || n == 0x202F || n == 0x205F || n == 0x3000

/-- Rust's `str::trim`: drop leading and trailing whitespace. -/
def rustTrim (s : List Char) : List Char :=
  ((s.dropWhile rustIsWhitespace).reverse.dropWhile rustIsWhitespace).reverse

/-- The `is_empty` test of `create_full_snapshot`'s trim loop:
no spans, or every span's text trims to empty. -/
def snapshotLineIsEmpty (l : SnapshotLine) : Bool :=
  l.spans.isEmpty || l.spans.all (fun s => (rustTrim s.text).isEmpty)

/-- The `while let Some(last) = lines.last()` pop loop of
`create_full_snapshot`: remove trailing lines while they are empty.
Encoded as dropping the longest empty prefix of the reversed list. -/
def trimTrailingEmpty (lines : List SnapshotLine) : List SnapshotLine :=
  (lines.reverse.dropWhile snapshotLineIsEmpty).reverse

/-- Type for avt's cursor state as read by lib.rs (`cursor.col/row/visible`). -/
structure Cursor where
  col : Nat
  row : Nat
  visible : Bool
deriving DecidableEq

/-- Observable state of the external `avt::Vt` engine, following the
capability interface of the spec: current size, viewport rows, all rows
(scrollback + viewport, oldest first), and cursor state.  Each row is the
ordered cell sequence returned by `line.cells()`. -/
structure AvtVt where
  cols : Nat
  rows : Nat
  view : List (List Cell)
  lines : List (List Cell)
  cursor : Cursor
deriving DecidableEq

/-- Method `size()` of avt. -/
def AvtVt.size (vt : AvtVt) : Nat × Nat := (vt.cols, vt.rows)

/-- Function `create_snapshot` from lib.rs: one merged line per viewport row,
no trimming. -/
def create_snapshot (vt : AvtVt) : TerminalSnapshot :=
  { cols := vt.cols
    rows := vt.rows
    lines := vt.view.map (fun line => { spans := merge_cells_to_spans line }) }

/-- Function `create_full_snapshot` from lib.rs: one merged line per history row,
then trailing empty lines trimmed. -/
def create_full_snapshot (vt : AvtVt) : TerminalSnapshot :=
  { cols := vt.cols
    rows := vt.rows
    lines :=
      trimTrailingEmpty
        (vt.lines.map (fun line => { spans := merge_cells_to_spans line })) }

/-- Method `Vt::get_view` from lib.rs (the `JsValue` layer modelled structurally). -/
def Vt.get_view (vt : AvtVt) : TerminalSnapshot := create_snapshot vt

/-- Method `Vt::get_all_lines` from lib.rs. -/
def Vt.get_all_lines (vt : AvtVt) : TerminalSnapshot := create_full_snapshot vt

/-- Method `Vt::get_cursor` from lib.rs: `[col, row]` when visible, null (`none`)
when hidden. -/
def Vt.get_cursor (vt : AvtVt) : Option (Nat × Nat) :=
  if vt.cursor.visible then some (vt.cursor.col, vt.cursor.row) else none

/-- Method `Vt::get_size` from lib.rs: always `[cols, rows]`, a total read. -/
def Vt.get_size (vt : AvtVt) : Nat × Nat :=
  let (cols, rows) := vt.size
  (cols, rows)

/-- Modelled from the spec: the engine's `feed` capability
("`feed(input) -> ChangeSet` — may fail abnormally").  `avt::Vt::feed_str`
is not part of this repository, so its behavior is abstract: `run` returns
the successor engine state together with `some changedRows` on success, or
`none` to model an abnormal termination (panic); on a panic the returned
state is the possibly partially-mutated engine (the code asserts unwind
safety, so the post-panic state is unspecified). -/
structure FeedSem where
  run : AvtVt → List Char → AvtVt × Option (List Nat)

/-- Method `Vt::feed` from lib.rs: the `panic::catch_unwind` boundary.  An `Ok`
result is serialized (total on a list of row indices); an `Err` (panic)
becomes `JsValue::NULL`, modelled as `none`. -/
def Vt.feed (sem : FeedSem) (vt : AvtVt) (s : List Char) :
    AvtVt × Option (List Nat) :=
  let result := sem.run vt s
  match result.2 with
  | some rows => (result.1, some rows)
  | none => (result.1, none)

/-- The attribute tuple (fg, bg, bold, faint, italic, underline,
strikethrough, blink, inverse) compared by `merge_cells_to_spans`. -/
structure AttrTuple where
  fg : Option ColorValue
  bg : Option ColorValue
  bold : Bool
  faint : Bool
  italic : Bool
  underline : Bool
  strikethrough : Bool
  blink : Bool
  inverse : Bool
deriving DecidableEq

/-- Attribute tuple of a span. -/
def spanAttrs (s : SnapshotSpan) : AttrTuple :=
  { fg := s.fg, bg := s.bg, bold := s.bold, faint := s.faint
    italic := s.italic, underline := s.underline
    strikethrough := s.strikethrough, blink := s.blink, inverse := s.inverse }

/-- Attribute tuple computed from a cell's pen, exactly as
`merge_cells_to_spans` computes it. -/
def cellAttrs (c : Cell) : AttrTuple :=
  { fg := c.pen.foreground.map (fun x => map_color x)
    bg := c.pen.background.map (fun x => map_color x)
    bold := c.pen.is_bold, faint := c.pen.is_faint, italic := c.pen.is_italic
    underline := c.pen.is_underline
    strikethrough := c.pen.is_strikethrough
    blink := c.pen.is_blink, inverse := c.pen.is_inverse }

/-- Attribute tuple currently held in the merge loop's locals. -/
def stateAttrs (st : MergeState) : AttrTuple :=
  { fg := st.current_fg, bg := st.current_bg, bold := st.current_bold
    faint := st.current_faint, italic := st.current_italic
    underline := st.current_underline
    strikethrough := st.current_strikethrough
    blink := st.current_blink, inverse := st.current_inverse }

/-- Proof helper: the state built by the "start new span" branch of
`mergeStep`, with the given accumulated span list. -/
def resetState (spans : List SnapshotSpan) (cell : Cell) : MergeState :=
  { spans := spans
    current_text := [cell.char]
    current_fg := cell.pen.foreground.map (fun c => map_color c)
    current_bg := cell.pen.background.map (fun c => map_color c)
    current_bold := cell.pen.is_bold
    current_faint := cell.pen.is_faint
    current_italic := cell.pen.is_italic
    current_underline := cell.pen.is_underline
    current_strikethrough := cell.pen.is_strikethrough
    current_blink := cell.pen.is_blink
    current_inverse := cell.pen.is_inverse }

/-- All text accumulated in a merge state: flushed spans plus the open run. -/
def stateText (st : MergeState) : List Char :=
  (st.spans.map SnapshotSpan.text).flatten ++ st.current_text

/-- Adjacent spans carry distinct attribute tuples. -/
def AdjacentDistinct (spans : List SnapshotSpan) : Prop :=
  List.Chain' (fun a b => spanAttrs a ≠ spanAttrs b) spans

/-- Invariant of the merge loop for span maximality: flushed spans are
pairwise adjacent-distinct, the span list is empty while no run is open,
and the last flushed span differs from the open run's attributes. -/
def GoodState (st : MergeState) : Prop :=
  AdjacentDistinct st.spans
    ∧ (st.current_text = [] → st.spans = [])
    ∧ ∀ a, st.spans.getLast? = some a → spanAttrs a ≠ stateAttrs st

/-- Invariant of the merge loop for span non-emptiness. -/
def SpansNonempty (spans : List SnapshotSpan) : Prop :=
  ∀ sp ∈ spans, sp.text ≠ []

/-- Invariant of the merge loop for attribute faithfulness: every character
already placed in a flushed span, and every character of the open run,
originates in some cell of `cells` of non-zero width whose attribute tuple
equals the span's (resp. the open run's) attributes. -/
def OriginOK (cells : List Cell) (st : MergeState) : Prop :=
  (∀ sp ∈ st.spans, ∀ ch ∈ sp.text,
      ∃ c ∈ cells, c.width ≠ 0 ∧ c.char = ch ∧ cellAttrs c = spanAttrs sp)
    ∧ ∀ ch ∈ st.current_text,
        ∃ c ∈ cells, c.width ≠ 0 ∧ c.char = ch ∧ cellAttrs c = stateAttrs st

/-- Uppercase-hex-digit test: `0`..`9` or `A`..`F`. -/
def isUpperHexDigit (c : Char) : Bool :=
  c.isDigit || ('A' ≤ c && c ≤ 'F')

/-! Concrete example values used to instantiate the theorems. -/

/-- A default pen: no colors, no attributes. -/
def examplePen : Pen :=
  { foreground := none, background := none, is_bold := false
    is_faint := false, is_italic := false, is_underline := false
    is_strikethrough := false, is_blink := false, is_inverse := false }

/-- A pen with an indexed foreground color (palette slot 9, a red hue). -/
def exampleIndexedPen : Pen := { examplePen with foreground := some (Color.indexed 9) }

/-- A pen with an RGB foreground color of the same visible hue (red). -/
def exampleRgbPen : Pen :=
  { examplePen with foreground := some (Color.rgb ⟨255, 0, 0⟩) }

/-- A one-cell row holding `a`. -/
def exampleRowA : List Cell := [⟨'a', 1, examplePen⟩]

/-- A one-cell row holding a space (whitespace-only). -/
def exampleRowSpace : List Cell := [⟨' ', 1, examplePen⟩]

/-- A row with no cells. -/
def exampleRowNil : List Cell := []

/-- A double-width character followed by its zero-width continuation cell. -/
def exampleWideRow : List Cell := [⟨'漢', 2, examplePen⟩, ⟨'漢', 0, examplePen⟩]

/-- Two same-hue cells: indexed red then RGB red. -/
def exampleHueRow : List Cell :=
  [⟨'x', 1, exampleIndexedPen⟩, ⟨'y', 1, exampleRgbPen⟩]

/-- The span produced by merging `exampleRowA`. -/
def exampleSpanA : SnapshotSpan :=
  { text := ['a'], fg := none, bg := none, bold := false, faint := false
    italic := false, underline := false, strikethrough := false
    blink := false, inverse := false }

/-- A 10-line history whose last 3 lines are empty/whitespace-only and whose
line 6 (0-indexed) is non-empty. -/
def exampleVt10 : AvtVt :=
  { cols := 4, rows := 4
    view := [exampleRowA, exampleRowNil, exampleRowA, exampleRowNil]
    lines := [exampleRowA, exampleRowNil, exampleRowA, exampleRowSpace,
      exampleRowA, exampleRowNil, exampleRowA, exampleRowSpace,
      exampleRowNil, exampleRowSpace]
    cursor := ⟨0, 0, true⟩ }

/-- An engine state whose view has exactly `rows` rows. -/
def exampleVtView : AvtVt :=
  { cols := 3, rows := 2, view := [exampleRowA, exampleRowNil]
    lines := [exampleRowA], cursor := ⟨0, 0, false⟩ }

/-- An engine state whose full history trims to fewer lines than `rows`. -/
def exampleVtTrim : AvtVt :=
  { cols := 3, rows := 2, view := [exampleRowNil, exampleRowNil]
    lines := [exampleRowNil, exampleRowNil], cursor := ⟨0, 0, false⟩ }

/-- An engine state with a visible cursor at column 5, row 2. -/
def exampleVtCursor : AvtVt :=
  { cols := 80, rows := 24, view := [], lines := [], cursor := ⟨5, 2, true⟩ }

/-- A feed semantics in which the engine panics on every input, leaving the
state unchanged. -/
def panicFeedSem : FeedSem := ⟨fun vt _ => (vt, none)⟩

/-! The claims. -/

/-- The attribute comparison performed by `mergeStep` is exactly equality
of the attribute tuples. -/
theorem attrs_match_iff (cell : Cell) (st : MergeState) :
    (cell.pen.foreground.map (fun c => map_color c) = st.current_fg
        ∧ cell.pen.background.map (fun c => map_color c) = st.current_bg
        ∧ cell.pen.is_bold = st.current_bold
        ∧ cell.pen.is_faint = st.current_faint
        ∧ cell.pen.is_italic = st.current_italic
        ∧ cell.pen.is_underline = st.current_underline
        ∧ cell.pen.is_strikethrough = st.current_strikethrough
        ∧ cell.pen.is_blink = st.current_blink
        ∧ cell.pen.is_inverse = st.current_inverse)
      ↔ cellAttrs cell = stateAttrs st := by
  simp [cellAttrs, stateAttrs, AttrTuple.mk.injEq]

/-- Case-analysis normal form of `mergeStep`. -/
theorem mergeStep_eq (st : MergeState) (cell : Cell) :
    mergeStep st cell =
      if cell.width = 0 then st
      else if cellAttrs cell = stateAttrs st ∧ st.current_text ≠ [] then
        { st with current_text := st.current_text ++ [cell.char] }
      else
        resetState
          (if st.current_text ≠ [] then st.spans ++ [mkCurrentSpan st]
            else st.spans) cell := by
  by_cases h0 : cell.width = 0
  · simp [mergeStep, h0]
  · by_cases hm : cellAttrs cell = stateAttrs st ∧ st.current_text ≠ []
    · rw [if_neg h0, if_pos hm]
      simp only [mergeStep, if_neg h0]
      rw [if_pos ⟨(attrs_match_iff cell st).mpr hm.1, hm.2⟩]
    · rw [if_neg h0, if_neg hm]
      simp only [mergeStep, if_neg h0]
      rw [if_neg]
      · rfl
      · intro hc
        exact hm ⟨(attrs_match_iff cell st).mp hc.1, hc.2⟩

/-- The attribute tuple of the span flushed from a merge state. -/
theorem spanAttrs_mkCurrentSpan (st : MergeState) :
    spanAttrs (mkCurrentSpan st) = stateAttrs st := rfl

/-- The attribute tuple held by a freshly reset merge state. -/
theorem stateAttrs_resetState (spans : List SnapshotSpan) (cell : Cell) :
    stateAttrs (resetState spans cell) = cellAttrs cell := rfl

/-- One merge step extends the accumulated text by the cell's character,
or by nothing for a zero-width cell. -/
theorem stateText_mergeStep (st : MergeState) (cell : Cell) :
    stateText (mergeStep st cell) =
      stateText st ++ if cell.width = 0 then [] else [cell.char] := by
  rw [mergeStep_eq]
  by_cases h0 : cell.width = 0
  · simp [h0]
  · by_cases hm : cellAttrs cell = stateAttrs st ∧ st.current_text ≠ []
    · simp [h0, hm, stateText]
    · by_cases ht : st.current_text = []
      · simp [h0, hm, ht, stateText, resetState]
      · have ha : ¬(cellAttrs cell = stateAttrs st) := fun h => hm ⟨h, ht⟩
        simp [h0, hm, ht, ha, stateText, resetState, mkCurrentSpan]

/-- Folding the merge loop over cells appends exactly the characters of
the non-zero-width cells, in order. -/
theorem stateText_foldl (l : List Cell) (st : MergeState) :
    stateText (l.foldl mergeStep st) =
      stateText st ++ (l.filter (fun c => c.width != 0)).map Cell.char := by
  induction l generalizing st with
  | nil => simp
  | cons c l ih =>
      rw [List.foldl_cons, ih, stateText_mergeStep]
      by_cases h0 : c.width = 0
      · simp [h0, List.filter_cons]
      · simp [h0, List.filter_cons]

/-- The final flush preserves the accumulated text. -/
theorem merge_text_eq_stateText (cells : List Cell) :
    ((merge_cells_to_spans cells).map SnapshotSpan.text).flatten =
      stateText (cells.foldl mergeStep initMergeState) := by
  unfold merge_cells_to_spans
  by_cases ht : (cells.foldl mergeStep initMergeState).current_text = []
  · simp [ht, stateText]
  · simp [ht, stateText, mkCurrentSpan]

theorem goodState_init : GoodState initMergeState := by
  refine ⟨List.chain'_nil, fun _ => rfl, ?_⟩
  intro a ha
  simp [initMergeState] at ha

theorem goodState_mergeStep (st : MergeState) (c : Cell) (h : GoodState st) :
    GoodState (mergeStep st c) := by
  rw [mergeStep_eq]
  by_cases h0 : c.width = 0
  · simpa [h0] using h
  · by_cases hm : cellAttrs c = stateAttrs st ∧ st.current_text ≠ []
    · rw [if_neg h0, if_pos hm]
      obtain ⟨hchain, _, hlast⟩ := h
      refine ⟨hchain, ?_, ?_⟩
      · intro habs
        simp at habs
      · intro a ha
        exact hlast a ha
    · rw [if_neg h0, if_neg hm]
      by_cases ht : st.current_text = []
      · have hsp := h.2.1 ht
        rw [if_neg (fun hne => hne ht)]
        refine ⟨?_, fun _ => hsp, ?_⟩
        · simp [AdjacentDistinct, resetState, hsp]
        · intro a ha
          simp [resetState, hsp] at ha
      · have hne : ¬(cellAttrs c = stateAttrs st) := fun hh => hm ⟨hh, ht⟩
        rw [if_pos ht]
        obtain ⟨hchain, _, hlast⟩ := h
        refine ⟨?_, ?_, ?_⟩
        · show AdjacentDistinct (st.spans ++ [mkCurrentSpan st])
          rw [AdjacentDistinct, List.chain'_append]
          refine ⟨hchain, List.chain'_singleton _, ?_⟩
          intro x hx y hy
          simp only [List.head?_cons, Option.mem_def, Option.some.injEq] at hy
          subst hy
          rw [spanAttrs_mkCurrentSpan]
          exact hlast x hx
        · intro habs
          simp [resetState] at habs
        · intro a ha
          have : (st.spans ++ [mkCurrentSpan st]).getLast? =
              some (mkCurrentSpan st) := List.getLast?_concat _
          rw [show (resetState (st.spans ++ [mkCurrentSpan st]) c).spans =
              st.spans ++ [mkCurrentSpan st] from rfl, this] at ha
          cases ha
          rw [spanAttrs_mkCurrentSpan, stateAttrs_resetState]
          exact fun hh => hne hh.symm

theorem goodState_foldl (l : List Cell) (st : MergeState) (h : GoodState st) :
    GoodState (l.foldl mergeStep st) := by
  induction l generalizing st with
  | nil => exact h
  | cons c l ih => exact ih _ (goodState_mergeStep _ _ h)

/-- Maximality of the merged spans: adjacent spans have distinct
attribute tuples. -/
theorem merge_spans_adjacentDistinct (cells : List Cell) :
    AdjacentDistinct (merge_cells_to_spans cells) := by
  have hg := goodState_foldl cells initMergeState goodState_init
  unfold merge_cells_to_spans
  by_cases ht : (cells.foldl mergeStep initMergeState).current_text = []
  · rw [if_neg (fun hne => hne ht)]
    exact hg.1
  · rw [if_pos ht, AdjacentDistinct, List.chain'_append]
    refine ⟨hg.1, List.chain'_singleton _, ?_⟩
    intro x hx y hy
    simp only [List.head?_cons, Option.mem_def, Option.some.injEq] at hy
    subst hy
    rw [spanAttrs_mkCurrentSpan]
    exact hg.2.2 x hx

theorem spansNonempty_mergeStep (st : MergeState) (c : Cell)
    (h : SpansNonempty st.spans) : SpansNonempty (mergeStep st c).spans := by
  rw [mergeStep_eq]
  by_cases h0 : c.width = 0
  · simpa [h0] using h
  · by_cases hm : cellAttrs c = stateAttrs st ∧ st.current_text ≠ []
    · rw [if_neg h0, if_pos hm]
      exact h
    · rw [if_neg h0, if_neg hm]
      by_cases ht : st.current_text = []
      · rw [if_neg (fun hne => hne ht)]
        exact h
      · rw [if_pos ht]
        intro sp hsp
        rcases List.mem_append.mp hsp with hl | hr
        · exact h sp hl
        · simp only [List.mem_singleton] at hr
          subst hr
          exact ht

theorem spansNonempty_foldl (l : List Cell) (st : MergeState)
    (h : SpansNonempty st.spans) :
    SpansNonempty (l.foldl mergeStep st).spans := by
  induction l generalizing st with
  | nil => exact h
  | cons c l ih => exact ih _ (spansNonempty_mergeStep _ _ h)

/-- No merged span has empty text. -/
theorem merge_spans_nonempty (cells : List Cell) :
    SpansNonempty (merge_cells_to_spans cells) := by
  have hg : SpansNonempty (cells.foldl mergeStep initMergeState).spans :=
    spansNonempty_foldl cells initMergeState (by intro sp hsp; simp [initMergeState] at hsp)
  unfold merge_cells_to_spans
  by_cases ht : (cells.foldl mergeStep initMergeState).current_text = []
  · rw [if_neg (fun hne => hne ht)]
    exact hg
  · rw [if_pos ht]
    intro sp hsp
    rcases List.mem_append.mp hsp with hl | hr
    · exact hg sp hl
    · simp only [List.mem_singleton] at hr
      subst hr
      exact ht

theorem originOK_mergeStep (cells : List Cell) (st : MergeState) (c : Cell)
    (hc : c ∈ cells) (h : OriginOK cells st) :
    OriginOK cells (mergeStep st c) := by
  rw [mergeStep_eq]
  by_cases h0 : c.width = 0
  · simpa [h0] using h
  · by_cases hm : cellAttrs c = stateAttrs st ∧ st.current_text ≠ []
    · rw [if_neg h0, if_pos hm]
      refine ⟨h.1, ?_⟩
      intro ch hch
      rcases List.mem_append.mp hch with hold | hnew
      · exact h.2 ch hold
      · simp only [List.mem_singleton] at hnew
        subst hnew
        exact ⟨c, hc, h0, rfl, hm.1⟩
    · rw [if_neg h0, if_neg hm]
      constructor
      · intro sp hsp ch hch
        by_cases ht : st.current_text = []
        · rw [if_neg (fun hne => hne ht)] at hsp
          exact h.1 sp hsp ch hch
        · rw [if_pos ht] at hsp
          rcases List.mem_append.mp hsp with hl | hr
          · exact h.1 sp hl ch hch
          · simp only [List.mem_singleton] at hr
            subst hr
            obtain ⟨c', hc', hw', hch', hattr'⟩ := h.2 ch hch
            exact ⟨c', hc', hw', hch', by rw [hattr', spanAttrs_mkCurrentSpan]⟩
      · intro ch hch
        have : ch = c.char := by
          simpa [resetState] using hch
        subst this
        exact ⟨c, hc, h0, rfl, by rw [stateAttrs_resetState]⟩

theorem originOK_foldl (cells : List Cell) (l : List Cell) (st : MergeState)
    (h : OriginOK cells st) :
    (∀ x ∈ l, x ∈ cells) → OriginOK cells (l.foldl mergeStep st) := by
  induction l generalizing st with
  | nil => exact fun _ => h
  | cons c l ih =>
      intro hl
      exact ih (mergeStep st c)
        (originOK_mergeStep cells st c (hl c (List.mem_cons_self c l)) h)
        (fun x hx => hl x (List.mem_cons_of_mem c hx))

/-- C10: every character of every merged span originates in a cell of the
row of non-zero width whose attribute tuple (fg, bg, bold, faint, italic,
underline, strikethrough, blink, inverse) is exactly the attribute tuple
recorded on that span: the span's attributes faithfully describe each of
its constituent cells, not merely the first one. -/
theorem merge_spans_origin (cells : List Cell) (sp : SnapshotSpan)
    (hsp : sp ∈ merge_cells_to_spans cells) (ch : Char) (hch : ch ∈ sp.text) :
    ∃ c ∈ cells, c.width ≠ 0 ∧ c.char = ch ∧ cellAttrs c = spanAttrs sp := by
  have hg : OriginOK cells (cells.foldl mergeStep initMergeState) :=
    originOK_foldl cells cells initMergeState
      ⟨by intro sp hsp; simp [initMergeState] at hsp,
        by intro ch hch; simp [initMergeState] at hch⟩
      (fun x hx => hx)
  rw [merge_cells_to_spans] at hsp
  by_cases ht : (cells.foldl mergeStep initMergeState).current_text = []
  · rw [if_neg (fun hne => hne ht)] at hsp
    exact hg.1 sp hsp ch hch
  · rw [if_pos ht] at hsp
    rcases List.mem_append.mp hsp with hl | hr
    · exact hg.1 sp hl ch hch
    · simp only [List.mem_singleton] at hr
      subst hr
      obtain ⟨c', hc', hw', hch', hattr'⟩ := hg.2 ch hch
      exact ⟨c', hc', hw', hch', by rw [hattr', spanAttrs_mkCurrentSpan]⟩

/-- Decomposition of the trim: the trimmed list followed by the removed
(empty) suffix is the original list. -/
theorem trimTrailingEmpty_append (ls : List SnapshotLine) :
    trimTrailingEmpty ls
        ++ (ls.reverse.takeWhile snapshotLineIsEmpty).reverse = ls := by
  unfold trimTrailingEmpty
  rw [← List.reverse_append, List.takeWhile_append_dropWhile,
    List.reverse_reverse]

/-- The trim keeps an initial segment of the list unchanged. -/
theorem trimTrailingEmpty_take (ls : List SnapshotLine) :
    trimTrailingEmpty ls = ls.take (trimTrailingEmpty ls).length :=
  calc trimTrailingEmpty ls
      = (trimTrailingEmpty ls
          ++ (ls.reverse.takeWhile snapshotLineIsEmpty).reverse).take
            (trimTrailingEmpty ls).length := (List.take_left _ _).symm
    _ = ls.take (trimTrailingEmpty ls).length := by
        rw [trimTrailingEmpty_append]

/-- Every line removed by the trim is empty. -/
theorem trimTrailingEmpty_dropped (ls : List SnapshotLine) :
    (ls.drop (trimTrailingEmpty ls).length).all snapshotLineIsEmpty = true := by
  have hdrop := @List.drop_left' _ (trimTrailingEmpty ls)
    ((ls.reverse.takeWhile snapshotLineIsEmpty).reverse) _ rfl
  rw [trimTrailingEmpty_append] at hdrop
  rw [hdrop, List.all_eq_true]
  intro x hx
  exact List.mem_takeWhile_imp (List.mem_reverse.mp hx)

/-- If anything remains after the trim, its last line is not empty. -/
theorem trimTrailingEmpty_last (ls : List SnapshotLine) :
    (trimTrailingEmpty ls).getLast?.all
      (fun l => !snapshotLineIsEmpty l) = true := by
  unfold trimTrailingEmpty
  rw [List.getLast?_reverse]
  have hh := List.head?_dropWhile_not snapshotLineIsEmpty ls.reverse
  cases hd : (ls.reverse.dropWhile snapshotLineIsEmpty).head? with
  | none => simp [hd]
  | some a =>
      rw [hd] at hh
      simp [hd, hh]

theorem hexDigit_upperHex (n : Nat) :
    isUpperHexDigit (hexDigit (n % 16)) = true := by
  have hall : ∀ m : Fin 16, isUpperHexDigit (hexDigit m.val) = true := by decide
  exact hall ⟨n % 16, Nat.mod_lt _ (by norm_num)⟩

theorem byteToHex_upperHex (n : Nat) :
    (byteToHex n).all isUpperHexDigit = true := by
  simp [byteToHex, hexDigit_upperHex (n / 16), hexDigit_upperHex n]

/-- C1: if the engine's feed routine terminates abnormally (panics) while
processing an input, `Vt::feed` intercepts the failure and returns null
(`none`) instead of propagating it; no changed-row information is returned,
and a subsequent `get_size` call on the resulting session still returns the
valid size pair. -/
theorem feed_panic_contained (sem : FeedSem) (vt : AvtVt) (s : List Char)
    (h : (sem.run vt s).2 = none) :
    (Vt.feed sem vt s).2 = none
      ∧ Vt.get_size (Vt.feed sem vt s).1 =
          ((Vt.feed sem vt s).1.cols, (Vt.feed sem vt s).1.rows) := by
  constructor <;> simp [Vt.feed, Vt.get_size, AvtVt.size, h]

/-- Witness for C1 at a concrete always-panicking engine. -/
theorem feed_panic_contained_witness :
    (Vt.feed panicFeedSem exampleVtCursor []).2 = none
      ∧ Vt.get_size (Vt.feed panicFeedSem exampleVtCursor []).1 =
          ((Vt.feed panicFeedSem exampleVtCursor []).1.cols,
            (Vt.feed panicFeedSem exampleVtCursor []).1.rows) :=
  feed_panic_contained panicFeedSem exampleVtCursor [] rfl

/-- C2: concatenating the text of the merged spans, in order, equals the
row's sequence of characters of non-zero display width in input order; in
particular a double-width character followed by its zero-width continuation
cell yields exactly one character. -/
theorem merge_content_preservation :
    (∀ cells : List Cell,
        ((merge_cells_to_spans cells).map SnapshotSpan.text).flatten =
          (cells.filter (fun c => c.width != 0)).map Cell.char)
      ∧ ((merge_cells_to_spans exampleWideRow).map SnapshotSpan.text).flatten
          = ['漢'] := by
  constructor
  · intro cells
    rw [merge_text_eq_stateText, stateText_foldl]
    rfl
  · decide

/-- C3: no two adjacent merged spans have equal attribute tuples, attribute
equality being exact structural equality: an `Indexed` and an `Rgb` color
are never equal, so two same-hue cells (indexed red, RGB red) still force a
span boundary. -/
theorem merge_span_maximality :
    (∀ cells : List Cell, AdjacentDistinct (merge_cells_to_spans cells))
      ∧ (∀ n s, ColorValue.indexed n ≠ ColorValue.rgb s)
      ∧ (merge_cells_to_spans exampleHueRow).length = 2 := by
  refine ⟨merge_spans_adjacentDistinct, ?_, by decide⟩
  intro n s h
  exact ColorValue.noConfusion h

/-- Witness for C3 at concrete colors. -/
theorem merge_span_maximality_witness :
    ColorValue.indexed 196 ≠ ColorValue.rgb "#FF0000".toList :=
  merge_span_maximality.2.1 196 "#FF0000".toList

/-- C4: the full-history snapshot is the per-row merged line list with
exactly the maximal contiguous suffix of empty lines removed (an initial
segment is kept verbatim, every removed line is empty, and a non-empty line
ends the result); in particular a 10-line history whose last 3 lines are
empty/whitespace-only and whose line 6 is non-empty yields exactly 7 lines
with line 6 preserved. -/
theorem full_snapshot_trim :
    (∀ vt : AvtVt,
      (create_full_snapshot vt).lines =
          (vt.lines.map (fun r => { spans := merge_cells_to_spans r })).take
            (create_full_snapshot vt).lines.length
        ∧ ((vt.lines.map (fun r => { spans := merge_cells_to_spans r })).drop
            (create_full_snapshot vt).lines.length).all snapshotLineIsEmpty
              = true
        ∧ (create_full_snapshot vt).lines.getLast?.all
            (fun l => !snapshotLineIsEmpty l) = true)
      ∧ (create_full_snapshot exampleVt10).lines.length = 7
      ∧ (create_full_snapshot exampleVt10).lines[6]? =
          some { spans := merge_cells_to_spans exampleRowA } := by
  refine ⟨fun vt => ⟨?_, ?_, ?_⟩, by decide, by decide⟩
  · exact trimTrailingEmpty_take _
  · exact trimTrailingEmpty_dropped _
  · exact trimTrailingEmpty_last _

/-- C5: when the engine's view has exactly `rows` rows, the viewport
snapshot holds exactly `rows` lines, one merged line per viewport row in
row order, with no trimming. -/
theorem viewport_snapshot_lines (vt : AvtVt)
    (h : vt.view.length = vt.rows) :
    (create_snapshot vt).lines =
        vt.view.map (fun r => { spans := merge_cells_to_spans r })
      ∧ (create_snapshot vt).lines.length = vt.rows := by
  refine ⟨rfl, ?_⟩
  simp [create_snapshot, h]

/-- Witness for C5 at a concrete engine state. -/
theorem viewport_snapshot_lines_witness :
    (create_snapshot exampleVtView).lines =
        exampleVtView.view.map (fun r => { spans := merge_cells_to_spans r })
      ∧ (create_snapshot exampleVtView).lines.length = exampleVtView.rows :=
  viewport_snapshot_lines exampleVtView (by decide)

/-- C6: both snapshots report `cols`/`rows` equal to the engine's current
size, independent of how many lines the snapshot contains; a trimmed full
snapshot may hold fewer lines than `rows` while `rows` still reflects the
live viewport height. -/
theorem snapshot_dims :
    (∀ vt : AvtVt,
      (create_snapshot vt).cols = (AvtVt.size vt).1
        ∧ (create_snapshot vt).rows = (AvtVt.size vt).2
        ∧ (create_full_snapshot vt).cols = (AvtVt.size vt).1
        ∧ (create_full_snapshot vt).rows = (AvtVt.size vt).2)
      ∧ (create_full_snapshot exampleVtTrim).lines.length <
          (AvtVt.size exampleVtTrim).2
      ∧ (create_full_snapshot exampleVtTrim).rows =
          (AvtVt.size exampleVtTrim).2 := by
  exact ⟨fun vt => ⟨rfl, rfl, rfl, rfl⟩, by decide, by decide⟩

/-- C7: the color mapping is total and deterministic on the two engine
color variants: an indexed color `n` maps to `Indexed(n)` (in particular
196 to `Indexed(196)`), and an RGB triple maps to a `#`-prefixed
6-hex-digit uppercase string (in particular (255, 0, 0) to `"#FF0000"`). -/
theorem map_color_spec :
    (∀ n, map_color (Color.indexed n) = ColorValue.indexed n)
      ∧ map_color (Color.indexed 196) = ColorValue.indexed 196
      ∧ map_color (Color.rgb ⟨255, 0, 0⟩) = ColorValue.rgb "#FF0000".toList
      ∧ ∀ rgb : RGB8, ∃ s,
          map_color (Color.rgb rgb) = ColorValue.rgb s
            ∧ s.length = 7
            ∧ s.head? = some '#'
            ∧ s.tail.all isUpperHexDigit = true := by
  refine ⟨fun n => rfl, rfl, by decide, ?_⟩
  intro rgb
  refine ⟨'#' :: (byteToHex rgb.r ++ byteToHex rgb.g ++ byteToHex rgb.b),
    rfl, ?_, rfl, ?_⟩
  · simp [byteToHex]
  · simp [List.all_append, byteToHex_upperHex]

/-- C8: `get_cursor` returns an absent value (null, not a sentinel pair)
exactly when the engine reports the cursor not visible, and the engine's
reported (col, row) pair when it is visible. -/
theorem get_cursor_spec (vt : AvtVt) :
    (Vt.get_cursor vt = none ↔ vt.cursor.visible = false)
      ∧ (vt.cursor.visible = true →
          Vt.get_cursor vt = some (vt.cursor.col, vt.cursor.row)) := by
  by_cases hv : vt.cursor.visible <;> simp [Vt.get_cursor, hv]

/-- Witness for C8: a visible cursor at (col 5, row 2) yields (5, 2). -/
theorem get_cursor_spec_witness :
    Vt.get_cursor exampleVtCursor = some (5, 2) :=
  (get_cursor_spec exampleVtCursor).2 rfl

/-- C9: every merged span has non-empty text. -/
theorem merge_spans_text_nonempty :
    ∀ cells : List Cell,
      (merge_cells_to_spans cells).all (fun sp => !sp.text.isEmpty) = true := by
  intro cells
  rw [List.all_eq_true]
  intro sp hsp
  have h := merge_spans_nonempty cells sp hsp
  simpa using h

/-- Witness for C10: the merged span of a concrete row with its character
and matching cell. -/
theorem merge_spans_origin_witness :
    ∃ c ∈ exampleRowA,
      c.width ≠ 0 ∧ c.char = 'a' ∧ cellAttrs c = spanAttrs exampleSpanA :=
  merge_spans_origin exampleRowA exampleSpanA (by decide) 'a' (by decide)

end VtWasm
